import Mathlib

/-!
Verification development for the occ front-end core: a shallow embedding of
the logical source reader (src/reader.c), the lexer (src/lexer.c) and the
token dictionary (src/token.c), with theorems about the spec's claims.

Conventions of the embedding:
* characters delivered by the reader are `Int` values: a byte 0..255, or the
  sentinel `EOF = -1`;
* a stream buffer is a `List Nat` of bytes; reading at or past the end yields
  the cstring's trailing NUL byte (modelled by `byteAt`'s default 0);
* the two reader loops that C writes with `goto nextch` are structural
  recursions on an upper bound of the remaining buffer (`nextRawGo`,
  `peekRawGo`, `scanBsGo`); the wrapper always supplies enough fuel, and the
  lemmas carry the corresponding bound as a hypothesis;
* lexer-level loops, which genuinely may not terminate (the block-comment
  loop), take an explicit fuel argument and return `none` when it runs out;
* diagnostics are recorded as a list of tags (`diag_kind`); the option-gated
  reader warnings (backslash-newline-space, no-newline-eof), file time stamps,
  the interned-name pool and the build date/time snapshot do not affect any
  claim and are not modelled.
-/

/-- End-of-input sentinel, the C `EOF`. -/
def EOF : Int := -1

/-- Modelled from the spec: `ISSPACE` from the missing header utils.h, the
standard C whitespace set (space, tab, newline, vertical tab, form feed,
carriage return). -/
def ISSPACE (c : Int) : Bool :=
  c == 32 || c == 9 || c == 10 || c == 11 || c == 12 || c == 13

/-- Modelled from the spec: `ISDIGIT` from the missing header utils.h. -/
def ISDIGIT (c : Int) : Bool := decide (48 ≤ c ∧ c ≤ 57)

/-- Modelled from the spec: `ISALPHA` from the missing header utils.h. -/
def ISALPHA (c : Int) : Bool :=
  decide ((65 ≤ c ∧ c ≤ 90) ∨ (97 ≤ c ∧ c ≤ 122))

/-- Modelled from the spec: `ISIDNUM` from the missing header utils.h.
The spec's identifier-continue set is alphanumeric, underscore, `$`, bytes in
[0x80,0xFD] and universal character names; the lexer tests `$`, the high bytes
and the UCN escapes separately next to every `ISIDNUM` call, so the macro
itself is alphanumeric-or-underscore. -/
def ISIDNUM (c : Int) : Bool := ISALPHA c || ISDIGIT c || c == 95

/-- Modelled from the spec: `ISHEX` from the missing header utils.h. -/
def ISHEX (c : Int) : Bool :=
  ISDIGIT c || decide (97 ≤ c ∧ c ≤ 102) || decide (65 ≤ c ∧ c ≤ 70)

/-- Modelled from the spec: `ISOCT` from the missing header utils.h. -/
def ISOCT (c : Int) : Bool := decide (48 ≤ c ∧ c ≤ 55)

/-- Modelled from the spec: `TODIGIT` from the missing header utils.h, the
value of a hex digit character. -/
def TODIGIT (c : Int) : Int :=
  if ISDIGIT c then c - 48 else if 97 ≤ c ∧ c ≤ 102 then c - 87 else c - 55

/-- Byte of a stream buffer at an index; at or past the end this is the
cstring's trailing NUL byte, hence 0. -/
def byteAt (buf : List Nat) (i : Nat) : Nat := buf.getD i 0

/-- Embeds `struct stream_s` (src/reader.c): one entry of the reader's stream
stack.  `pc` is the read cursor as an index into `buf`; the end sentinel `pe`
is `buf.length`; `line_note` is the start-of-current-line index; `stashed` is
the put-back stash with its most recently pushed byte first; `lastch` is the
last delivered character.  The stream type tag and the three file time stamps
play no part in character delivery and are omitted. -/
structure stream_s where
  buf : List Nat
  pc : Nat
  line : Nat
  column : Nat
  line_note : Nat
  stashed : List Nat
  lastch : Int
  fn : String
deriving DecidableEq

/-- Outcome of the backslash look-ahead loop inside `__stream_next__` and
`__stream_peek__` (src/reader.c): splice to a new cursor position, reach the
end of input, or deliver the backslash unchanged. -/
inductive BsOut where
  | splice (p : Nat)
  | eofNl
  | plain
deriving DecidableEq

/-- Embeds the look-ahead loop of the backslash case of `__stream_next__`
(src/reader.c lines 401-428): scan forward from `pc` over horizontal
whitespace; a carriage return (optionally followed by line feed) or a line
feed splices, reaching the end sentinel synthesizes a newline, anything else
delivers the backslash.  The first argument is recursion fuel; the wrapper
`scanBs` always supplies more fuel than the loop can consume. -/
def scanBsGo : Nat → List Nat → Nat → BsOut
  | 0, buf, pc => if pc < buf.length then .plain else .eofNl
  | n+1, buf, pc =>
    if pc < buf.length then
      if ISSPACE (byteAt buf pc : Int) then
        if byteAt buf pc = 13 then
          if byteAt buf (pc + 1) = 10 then .splice (pc + 2) else .splice (pc + 1)
        else if byteAt buf pc = 10 then .splice (pc + 1)
        else scanBsGo n buf (pc + 1)
      else .plain
    else .eofNl

/-- Backslash look-ahead of `__stream_next__` (src/reader.c), with the fuel
fixed large enough that `scanBsGo` never bottoms out. -/
def scanBs (buf : List Nat) (pc : Nat) : BsOut :=
  scanBsGo (buf.length - pc + 1) buf pc

/-- Embeds the `nextch` loop of `__stream_next__` (src/reader.c lines
368-447): the buffer part of character delivery, excluding the stash pop and
the final `lastch` update.  `STREAM_STEP_BY_LINE` is inlined as the updates
`line + 1`, `column := 1`, `line_note :=` cursor after the step.  The first
argument is recursion fuel for the splice restart; the wrapper `stream_next`
always supplies more fuel than the restarts can consume. -/
def nextRawGo : Nat → stream_s → Int × stream_s
  | 0, s => (if s.lastch = 10 ∨ s.lastch = EOF then EOF else 10, s)
  | n+1, s =>
    if s.pc < s.buf.length then
      if (byteAt s.buf s.pc : Int) = 13 then
        if byteAt s.buf (s.pc + 1) = 10 then
          (10, { s with pc := s.pc + 2, line := s.line + 1, column := 1,
                        line_note := s.pc + 2 })
        else
          (10, { s with pc := s.pc + 1, line := s.line + 1, column := 1,
                        line_note := s.pc + 1 })
      else if (byteAt s.buf s.pc : Int) = 10 then
        (10, { s with pc := s.pc + 1, line := s.line + 1, column := 1,
                      line_note := s.pc + 1 })
      else if (byteAt s.buf s.pc : Int) = 92 then
        match scanBs s.buf (s.pc + 1) with
        | .splice p =>
          nextRawGo n { s with pc := p, line := s.line + 1, column := 1,
                               line_note := p }
        | .eofNl => (10, { s with pc := s.buf.length })
        | .plain => (92, { s with pc := s.pc + 1 })
      else
        ((byteAt s.buf s.pc : Int), { s with pc := s.pc + 1, column := s.column + 1 })
    else
      (if s.lastch = 10 ∨ s.lastch = EOF then EOF else 10, s)

/-- Embeds `__stream_next__` (src/reader.c): pop the put-back stash if it is
non-empty, otherwise run the buffer loop; either way record the delivered
character in `lastch`. -/
def stream_next (s : stream_s) : Int × stream_s :=
  match s.stashed with
  | c :: rest => ((c : Int), { s with stashed := rest, lastch := (c : Int) })
  | [] =>
    let r := nextRawGo (s.buf.length - s.pc + 1) s
    (r.1, { r.2 with lastch := r.1 })

/-- Embeds the cursor-local loop of `__stream_peek__` (src/reader.c lines
455-498); it performs the same computation as the `nextch` loop of
`__stream_next__` on a scratch cursor and returns only the character. -/
def peekRawGo : Nat → List Nat → Nat → Int → Int
  | 0, _, _, lastch => if lastch = 10 ∨ lastch = EOF then EOF else 10
  | n+1, buf, pc, lastch =>
    if pc < buf.length then
      if (byteAt buf pc : Int) = 13 ∨ (byteAt buf pc : Int) = 10 then 10
      else if (byteAt buf pc : Int) = 92 then
        match scanBs buf (pc + 1) with
        | .splice p => peekRawGo n buf p lastch
        | .eofNl => 10
        | .plain => 92
      else (byteAt buf pc : Int)
    else if lastch = 10 ∨ lastch = EOF then EOF else 10

/-- Embeds `__stream_peek__` (src/reader.c): the top of the put-back stash if
it is non-empty, otherwise the buffer loop on a scratch cursor.  The C
function writes through no pointer, which the embedding reflects by returning
only the character. -/
def stream_peek (s : stream_s) : Int :=
  match s.stashed with
  | c :: _ => (c : Int)
  | [] => peekRawGo (s.buf.length - s.pc + 1) s.buf s.pc s.lastch

/-- Embeds `__stream_push__` (src/reader.c): push one character onto the
put-back stash; `cstring_push_ch` takes an unsigned char, hence the byte
truncation. -/
def stream_push (s : stream_s) (ch : Int) : stream_s :=
  { s with stashed := (ch % 256).toNat :: s.stashed }

/-- Embeds a freshly initialised string stream (`__stream_init__`,
src/reader.c): cursor at the start, line and column 1, empty stash, last
character the NUL byte. -/
def stream_of_string (bytes : List Nat) : stream_s :=
  { buf := bytes, pc := 0, line := 1, column := 1, line_note := 0,
    stashed := [], lastch := 0, fn := "<string>" }

/-- Embeds the reader's stream stack (`reader_s.streams`, src/reader.c); the
head of the list is `reader->last`, the active stream. -/
def reader_t := List stream_s

/-- Embeds `reader_get` (src/reader.c): delegate to the active stream, or
return the end sentinel when no stream remains. -/
def reader_get : List stream_s → Int × List stream_s
  | [] => (EOF, [])
  | s :: rest =>
    let r := stream_next s
    (r.1, r.2 :: rest)

/-- Embeds `reader_peek` (src/reader.c). -/
def reader_peek : List stream_s → Int
  | [] => EOF
  | s :: _ => stream_peek s

/-- Embeds `reader_unget` (src/reader.c); the C code asserts the character is
neither `EOF` nor NUL and dereferences the active stream, so the empty-reader
case is unreachable there and modelled as a no-op. -/
def reader_unget : List stream_s → Int → List stream_s
  | [], _ => []
  | s :: rest, ch => stream_push s ch :: rest

/-- Embeds `reader_try` (src/reader.c): consume the next character exactly
when it equals `ch`. -/
def reader_try (r : List stream_s) (ch : Int) : Bool × List stream_s :=
  if reader_peek r = ch then (true, (reader_get r).2) else (false, r)

/-- Embeds `reader_test` (src/reader.c). -/
def reader_test (r : List stream_s) (ch : Int) : Bool :=
  reader_peek r == ch

/-- Embeds `reader_is_empty` (src/reader.c): the stream stack is empty; note
this says nothing about the active stream's buffer being exhausted. -/
def reader_is_empty (r : List stream_s) : Bool :=
  r.isEmpty

/-- Embeds `reader_line` (src/reader.c); the C code asserts a stream exists. -/
def reader_line : List stream_s → Nat
  | [] => 0
  | s :: _ => s.line

/-- Embeds `reader_column` (src/reader.c). -/
def reader_column : List stream_s → Nat
  | [] => 0
  | s :: _ => s.column

/-- Embeds `reader_linenote` (src/reader.c). -/
def reader_linenote : List stream_s → Nat
  | [] => 0
  | s :: _ => s.line_note

/-- Embeds `reader_filename` (src/reader.c). -/
def reader_name : List stream_s → String
  | [] => ""
  | s :: _ => s.fn

/-- Termination measure of character delivery on a stash-empty stream: twice
the remaining buffer plus one when a newline can still be synthesized.  Every
delivery other than the end sentinel strictly decreases it. -/
def streamMeasure (s : stream_s) : Nat :=
  2 * (s.buf.length - s.pc) + (if s.lastch = 10 ∨ s.lastch = EOF then 0 else 1)

/-- Characters delivered by repeated `stream_next` until the end sentinel,
with fuel; `none` when the fuel runs out before the end sentinel appears. -/
def collect : stream_s → Nat → Option (List Int)
  | _, 0 => none
  | s, n+1 =>
    let r := stream_next s
    if r.1 = EOF then some [] else (collect r.2 n).map (fun l => r.1 :: l)

/-- Reader state after `k` calls of `reader_get`. -/
def reader_iter (r : List stream_s) : Nat → List stream_s
  | 0 => r
  | k+1 => (reader_get (reader_iter r k)).2

/-- Character delivered by the `(k+1)`-th call of `reader_get`. -/
def reader_chr (r : List stream_s) (k : Nat) : Int :=
  (reader_get (reader_iter r k)).1

/-- Embeds `token_type_t`, the exhaustive token kind enumeration used by
src/lexer.c and src/token.c. -/
inductive token_type_t where
  | TOKEN_L_SQUARE | TOKEN_R_SQUARE | TOKEN_L_PAREN | TOKEN_R_PAREN
  | TOKEN_L_BRACE | TOKEN_R_BRACE | TOKEN_COMMA | TOKEN_SEMI | TOKEN_COLON
  | TOKEN_QUESTION | TOKEN_PERIOD | TOKEN_ELLIPSIS
  | TOKEN_AMP | TOKEN_AMPAMP | TOKEN_AMPEQUAL
  | TOKEN_STAR | TOKEN_STAREQUAL
  | TOKEN_PLUS | TOKEN_PLUSPLUS | TOKEN_PLUSEQUAL
  | TOKEN_MINUS | TOKEN_MINUSMINUS | TOKEN_MINUSEQUAL | TOKEN_ARROW
  | TOKEN_TILDE | TOKEN_EXCLAIM | TOKEN_EXCLAIMEQUAL
  | TOKEN_SLASH | TOKEN_SLASHEQUAL
  | TOKEN_PERCENT | TOKEN_PERCENTEQUAL
  | TOKEN_LESS | TOKEN_LESSLESS | TOKEN_LESSLESSEQUAL | TOKEN_LESSEQUAL
  | TOKEN_GREATER | TOKEN_GREATERGREATER | TOKEN_GREATERGREATEREQUAL
  | TOKEN_GREATEREQUAL
  | TOKEN_CARET | TOKEN_CARETEQUAL
  | TOKEN_PIPE | TOKEN_PIPEPIPE | TOKEN_PIPEEQUAL
  | TOKEN_EQUAL | TOKEN_EQUALEQUAL
  | TOKEN_HASH | TOKEN_HASHHASH | TOKEN_BACKSLASH
  | TOKEN_SPACE | TOKEN_NEW_LINE | TOKEN_COMMENT | TOKEN_END
  | TOKEN_IDENTIFIER | TOKEN_NUMBER
  | TOKEN_CONSTANT_CHAR | TOKEN_CONSTANT_WCHAR | TOKEN_CONSTANT_CHAR16
  | TOKEN_CONSTANT_CHAR32 | TOKEN_CONSTANT_UTF8CHAR
  | TOKEN_CONSTANT_STRING | TOKEN_CONSTANT_WSTRING | TOKEN_CONSTANT_STRING16
  | TOKEN_CONSTANT_STRING32 | TOKEN_CONSTANT_UTF8STRING
  | TOKEN_UNKNOWN
deriving DecidableEq

/-- Embeds `encoding_type_t` (src/encoding.c, src/lexer.c). -/
inductive encoding_type_t where
  | ENCODING_NONE | ENCODING_CHAR16 | ENCODING_CHAR32 | ENCODING_UTF8
  | ENCODING_WCHAR
deriving DecidableEq

/-- Tags for the diagnostics the embedded lexer emits, one per `ERRORF` or
`WARNINGF` message string of src/lexer.c; the diagnostic sink itself only
records them in order. -/
inductive diag_kind where
  | missing_terminating_char
  | empty_character_constant
  | unterminated_string_literal
  | unknown_escape_character
  | hex_escape_no_digits
  | invalid_universal_character
  | unknown_identifier
deriving DecidableEq

/-- Embeds `struct source_location_s` (src/token.c): line, column,
start-of-line note and source name of a token's origin. -/
structure source_location_s where
  line : Nat
  column : Nat
  line_note : Nat
  fn : String
deriving DecidableEq

/-- Embeds `struct token_s` as used by src/lexer.c: kind, literal bytes
(`tok->cs`), leading-space count (`tok->spaces`), beginning-of-line flag and
location.  The preprocessor's opaque hide-set slot is inert for the lexer and
omitted. -/
structure token_s where
  type : token_type_t
  cs : List Nat
  spaces : Nat
  begin_of_line : Bool
  loc : source_location_s
deriving DecidableEq

/-- Embeds `struct lexer_s` (src/lexer.c): the reader, the reusable
in-progress token, the stash stack of token stacks (`snapshots`, innermost
stack first, most recently pushed token first) and the recorded diagnostics.
The build date/time snapshot and the option bag are not modelled. -/
structure lexer_s where
  reader : List stream_s
  tok : token_s
  snapshots : List (List token_s)
  diags : List diag_kind
deriving DecidableEq

/-- Embeds `token_init` (src/token.c) as applied to the lexer's in-progress
token: kind unknown, empty literal, zeroed location.  Modelled from the spec:
the version of token.h used by src/lexer.c is missing; per the spec the
in-progress buffer, including the whitespace count, is cleared for reuse when
a token is finalized. -/
def token_init_tok : token_s :=
  { type := .TOKEN_UNKNOWN, cs := [], spaces := 0, begin_of_line := false,
    loc := { line := 0, column := 0, line_note := 0, fn := "" } }

/-- Records one diagnostic, embedding the `ERRORF`/`WARNINGF` macros of
src/lexer.c (the sink formats and emits eagerly, never aborting the lexer). -/
def lexer_emit (L : lexer_s) (d : diag_kind) : lexer_s :=
  { L with diags := L.diags ++ [d] }

/-- Embeds `cstring_cat_ch` applied to the in-progress literal
(src/lexer.c); `cstring_cat_ch` takes an unsigned char, hence the byte
truncation. -/
def lexer_cat_ch (L : lexer_s) (ch : Int) : lexer_s :=
  { L with tok := { L.tok with cs := L.tok.cs ++ [(ch % 256).toNat] } }

/-- Embeds `__lexer_mark_loc__` (src/lexer.c). -/
def lexer_mark_loc (L : lexer_s) : lexer_s :=
  { L with tok := { L.tok with loc :=
      { line := reader_line L.reader, column := reader_column L.reader,
        line_note := reader_linenote L.reader, fn := reader_name L.reader } } }

/-- Embeds `__lexer_remark_loc__` (src/lexer.c): update line, column and line
note while keeping the source name. -/
def lexer_remark_loc (L : lexer_s) : lexer_s :=
  { L with tok := { L.tok with loc :=
      { L.tok.loc with line := reader_line L.reader,
                       column := reader_column L.reader,
                       line_note := reader_linenote L.reader } } }

/-- Embeds `__lexer_make_token__` (src/lexer.c): stamp the kind, hand out a
duplicate of the in-progress token (`token_dup`) and reset the in-progress
token (`token_init`). -/
def lexer_make_token (L : lexer_s) (ty : token_type_t) : token_s × lexer_s :=
  ({ L.tok with type := ty }, { L with tok := token_init_tok })

/-- Convenience wrapper for `reader_try` acting on the lexer state. -/
def lexer_try (L : lexer_s) (ch : Int) : Bool × lexer_s :=
  let r := reader_try L.reader ch
  (r.1, { L with reader := r.2 })

/-- Convenience wrapper for `reader_get` acting on the lexer state. -/
def lexer_get (L : lexer_s) : Int × lexer_s :=
  let r := reader_get L.reader
  (r.1, { L with reader := r.2 })

/-- Convenience wrapper for `reader_unget` acting on the lexer state. -/
def lexer_unget_ch (L : lexer_s) (ch : Int) : lexer_s :=
  { L with reader := reader_unget L.reader ch }

/-- Embeds `__lexer_is_unc__` (src/lexer.c): the character is a backslash and
the next one is `u` or `U`. -/
def lexer_is_unc (L : lexer_s) (ch : Int) : Bool :=
  ch == 92 && (reader_test L.reader 117 || reader_test L.reader 85)

/-- Embeds `cstring_append_utf8` (src/encoding.c): UTF-8 encode a code point
into the literal; code points at or above 0x200000 are rejected (the C
function returns NULL, which makes the calling parser return a null token). -/
def cstring_append_utf8 (cs : List Nat) (rune : Nat) : Option (List Nat) :=
  if rune < 0x80 then some (cs ++ [rune])
  else if rune < 0x800 then
    some (cs ++ [0xC0 ||| (rune >>> 6), 0x80 ||| (rune &&& 0x3F)])
  else if rune < 0x10000 then
    some (cs ++ [0xE0 ||| (rune >>> 12), 0x80 ||| ((rune >>> 6) &&& 0x3F),
                 0x80 ||| (rune &&& 0x3F)])
  else if rune < 0x200000 then
    some (cs ++ [0xF0 ||| (rune >>> 18), 0x80 ||| ((rune >>> 12) &&& 0x3F),
                 0x80 ||| ((rune >>> 6) &&& 0x3F), 0x80 ||| (rune &&& 0x3F)])
  else none

/-- Embeds the `VALID_SIGN` macro of `__lexer_parse_number__`
(src/lexer.c): a sign immediately preceded by `e`, `E`, `p` or `P`. -/
def VALID_SIGN (c prevc : Int) : Bool :=
  (c == 43 || c == 45) &&
    (prevc == 101 || prevc == 69 || prevc == 112 || prevc == 80)

/-- Continuation test of the pp-number loop of `__lexer_parse_number__`
(src/lexer.c line 354): identifier-continue per `ISIDNUM`, a period, a valid
sign, or a single-quote digit separator. -/
def number_accepts (c prev : Int) : Bool :=
  ISIDNUM c || c == 46 || VALID_SIGN c prev || c == 39

/-- Embeds the accumulation loop of `__lexer_parse_number__` (src/lexer.c):
peek, stop unless accepted, append the peeked character, remember it as
`prev`, consume, repeat. -/
def lexer_parse_number_go : Nat → lexer_s → Int → Option lexer_s
  | 0, _, _ => none
  | n+1, L, prev =>
    if number_accepts (reader_peek L.reader) prev then
      lexer_parse_number_go n
        { L with reader := (reader_get L.reader).2,
                 tok := { L.tok with
                   cs := L.tok.cs ++ [((reader_peek L.reader) % 256).toNat] } }
        (reader_peek L.reader)
    else some L

/-- Embeds `__lexer_parse_number__` (src/lexer.c): append the already-read
first character (`prev` starts at -1), run the loop, finalize a NUMBER
token. -/
def lexer_parse_number (fuel : Nat) (L : lexer_s) (ch : Int) :
    Option (token_s × lexer_s) :=
  (lexer_parse_number_go fuel (lexer_cat_ch L ch) (-1)).map
    (fun L => lexer_make_token L .TOKEN_NUMBER)

/-- Embeds the digit loop of `__lexer_parse_unc__` (src/lexer.c): read
exactly `len` characters, diagnosing every non-hex one, folding hex values
into a 32-bit unsigned accumulator. -/
def lexer_parse_unc_go : Nat → lexer_s → Int → Int × lexer_s
  | 0, L, u => (u, L)
  | i+1, L, u =>
    let g := lexer_get L
    let L1 := if ISHEX g.1 then g.2 else lexer_emit g.2 .invalid_universal_character
    lexer_parse_unc_go i L1 ((u * 16 + TODIGIT g.1) % 4294967296)

/-- Embeds `__lexer_parse_unc__` (src/lexer.c): remark the location, then
read 4 or 8 hex digits. -/
def lexer_parse_unc (L : lexer_s) (len : Nat) : Int × lexer_s :=
  lexer_parse_unc_go len (lexer_remark_loc L) 0

/-- Embeds the digit loop of `__lexer_parse_hex_escaped__` (src/lexer.c):
consume the maximal run of hex digits, folding them into the accumulator.
The C accumulator is a (signed) `int`; the fold is modelled without a wrap,
as the spec specifies an arbitrary-width fold. -/
def lexer_parse_hex_go : Nat → lexer_s → Int → Option (Int × lexer_s)
  | 0, _, _ => none
  | n+1, L, hex =>
    if ISHEX (reader_peek L.reader) then
      lexer_parse_hex_go n
        { L with reader := (reader_get L.reader).2 }
        (hex * 16 + TODIGIT (reader_peek L.reader))
    else some (hex, L)

/-- Embeds `__lexer_parse_hex_escaped__` (src/lexer.c): diagnose a `\x` with
no following hex digit, then fold the maximal run. -/
def lexer_parse_hex_escaped (fuel : Nat) (L : lexer_s) :
    Option (Int × lexer_s) :=
  let L1 := if ISHEX (reader_peek L.reader) then L
            else lexer_emit L .hex_escape_no_digits
  lexer_parse_hex_go fuel L1 0

/-- Embeds `__lexer_parse_oct_escaped__` (src/lexer.c): the first digit is
already read; consume up to two more octal digits. -/
def lexer_parse_oct_escaped (L : lexer_s) (ch : Int) : Int × lexer_s :=
  let oct := TODIGIT ch
  let c2 := reader_peek L.reader
  if ISOCT c2 then
    let oct2 := oct * 8 + TODIGIT c2
    let L2 := { L with reader := (reader_get L.reader).2 }
    let c3 := reader_peek L2.reader
    if ISOCT c3 then
      (oct2 * 8 + TODIGIT c3, { L2 with reader := (reader_get L2.reader).2 })
    else (oct2, L2)
  else (oct, L)

/-- Embeds `__lexer_parse_escaped__` (src/lexer.c): remark the location, read
the escape character, and resolve it; an unknown escape warns and yields the
character itself. -/
def lexer_parse_escaped (fuel : Nat) (L : lexer_s) : Option (Int × lexer_s) :=
  let g := lexer_get (lexer_remark_loc L)
  let ch := g.1
  let L1 := g.2
  if ch = 39 ∨ ch = 34 ∨ ch = 63 ∨ ch = 92 then some (ch, L1)
  else if ch = 97 then some (7, L1)
  else if ch = 98 then some (8, L1)
  else if ch = 102 then some (12, L1)
  else if ch = 110 then some (10, L1)
  else if ch = 114 then some (13, L1)
  else if ch = 116 then some (9, L1)
  else if ch = 118 then some (11, L1)
  else if ch = 101 ∨ ch = 69 then some (27, L1)
  else if ch = 120 then lexer_parse_hex_escaped fuel L1
  else if ch = 117 then some (lexer_parse_unc L1 4)
  else if ch = 85 then some (lexer_parse_unc L1 8)
  else if 48 ≤ ch ∧ ch ≤ 55 then some (lexer_parse_oct_escaped L1 ch)
  else some (ch, lexer_emit L1 .unknown_escape_character)

/-- Embeds the accumulation loop of `__lexer_parse_character__`
(src/lexer.c): read until a closing quote, newline or end of input; after the
first accumulated character further ones are consumed but discarded
(`parsed`); escapes are resolved, universal character names are re-encoded as
UTF-8.  Returns the breaking character, the `parsed` flag and the state. -/
def lexer_parse_character_go : Nat → lexer_s → Bool →
    Option (Int × Bool × lexer_s)
  | 0, _, _ => none
  | n+1, L, parsed =>
    let g := lexer_get L
    let ch := g.1
    let L1 := g.2
    if ch = 39 ∨ ch = 10 ∨ ch = EOF then some (ch, parsed, L1)
    else if parsed then lexer_parse_character_go n L1 parsed
    else if ch = 92 then
      let isunc := lexer_is_unc L1 ch
      match lexer_parse_escaped (n+1) L1 with
      | none => none
      | some e =>
        if isunc then
          match cstring_append_utf8 e.2.tok.cs ((e.1 % 4294967296).toNat) with
          | none => none
          | some cs =>
            lexer_parse_character_go n
              { e.2 with tok := { e.2.tok with cs := cs } } true
        else lexer_parse_character_go n (lexer_cat_ch e.2 e.1) true
    else lexer_parse_character_go n (lexer_cat_ch L1 ch) true

/-- Embeds `__lexer_parse_character__` (src/lexer.c): run the loop, diagnose
a missing terminating quote and an empty constant, and finalize the token
kind from the encoding. -/
def lexer_parse_character (fuel : Nat) (L : lexer_s) (ent : encoding_type_t) :
    Option (token_s × lexer_s) :=
  match lexer_parse_character_go fuel L false with
  | none => none
  | some r =>
    let L1 := if r.1 ≠ 39 then lexer_emit r.2.2 .missing_terminating_char
              else r.2.2
    let L2 := if r.2.1 = false then lexer_emit L1 .empty_character_constant
              else L1
    some (lexer_make_token L2
      (match ent with
       | .ENCODING_CHAR16 => .TOKEN_CONSTANT_CHAR16
       | .ENCODING_CHAR32 => .TOKEN_CONSTANT_CHAR32
       | .ENCODING_UTF8 => .TOKEN_CONSTANT_UTF8CHAR
       | .ENCODING_WCHAR => .TOKEN_CONSTANT_WCHAR
       | .ENCODING_NONE => .TOKEN_CONSTANT_CHAR))

/-- Embeds the accumulation loop of `__lexer_parse_string__` (src/lexer.c). -/
def lexer_parse_string_go : Nat → lexer_s → Option (Int × lexer_s)
  | 0, _ => none
  | n+1, L =>
    let g := lexer_get L
    let ch := g.1
    let L1 := g.2
    if ch = 34 ∨ ch = 10 ∨ ch = EOF then some (ch, L1)
    else if ch = 92 then
      let isunc := lexer_is_unc L1 ch
      match lexer_parse_escaped (n+1) L1 with
      | none => none
      | some e =>
        if isunc then
          match cstring_append_utf8 e.2.tok.cs ((e.1 % 4294967296).toNat) with
          | none => none
          | some cs =>
            lexer_parse_string_go n { e.2 with tok := { e.2.tok with cs := cs } }
        else lexer_parse_string_go n (lexer_cat_ch e.2 e.1)
    else lexer_parse_string_go n (lexer_cat_ch L1 ch)

/-- Embeds `__lexer_parse_string__` (src/lexer.c). -/
def lexer_parse_string (fuel : Nat) (L : lexer_s) (ent : encoding_type_t) :
    Option (token_s × lexer_s) :=
  match lexer_parse_string_go fuel L with
  | none => none
  | some r =>
    let L1 := if r.1 ≠ 34 then lexer_emit r.2 .unterminated_string_literal
              else r.2
    some (lexer_make_token L1
      (match ent with
       | .ENCODING_CHAR16 => .TOKEN_CONSTANT_STRING16
       | .ENCODING_CHAR32 => .TOKEN_CONSTANT_STRING32
       | .ENCODING_UTF8 => .TOKEN_CONSTANT_UTF8STRING
       | .ENCODING_WCHAR => .TOKEN_CONSTANT_WSTRING
       | .ENCODING_NONE => .TOKEN_CONSTANT_STRING))

/-- Embeds the accumulation loop of `__lexer_parse_identifier__`
(src/lexer.c): collect identifier-continue characters, `$`, high bytes and
universal character names; on the breaking character, unget it. -/
def lexer_parse_identifier_go : Nat → lexer_s → Option lexer_s
  | 0, _ => none
  | n+1, L =>
    let g := lexer_get L
    let ch := g.1
    let L1 := g.2
    if ISIDNUM ch || ch == 36 || (decide (128 ≤ ch) && decide (ch ≤ 253)) then
      lexer_parse_identifier_go n (lexer_cat_ch L1 ch)
    else if lexer_is_unc L1 ch then
      match lexer_parse_escaped (n+1) L1 with
      | none => none
      | some e =>
        match cstring_append_utf8 e.2.tok.cs ((e.1 % 4294967296).toNat) with
        | none => none
        | some cs =>
          lexer_parse_identifier_go n { e.2 with tok := { e.2.tok with cs := cs } }
    else some (lexer_unget_ch L1 ch)

/-- Embeds `__lexer_parse_identifier__` (src/lexer.c). -/
def lexer_parse_identifier (fuel : Nat) (L : lexer_s) :
    Option (token_s × lexer_s) :=
  (lexer_parse_identifier_go fuel L).map
    (fun L => lexer_make_token L .TOKEN_IDENTIFIER)

/-- Embeds `__lexer_parse_encoding__` (src/lexer.c): map the prefix
character (`u`, possibly followed by `8`, `U`, `L`) to an encoding. -/
def lexer_parse_encoding (L : lexer_s) (ch : Int) :
    encoding_type_t × lexer_s :=
  if ch = 117 then
    let t := lexer_try L 56
    (if t.1 then .ENCODING_UTF8 else .ENCODING_CHAR16, t.2)
  else if ch = 85 then (.ENCODING_CHAR32, L)
  else if ch = 76 then (.ENCODING_WCHAR, L)
  else (.ENCODING_NONE, L)

/-- Embeds `__lexer_skip_white_space__`'s loop (src/lexer.c): consume
horizontal whitespace (stopping at a newline or an empty reader), counting
each consumed character in the in-progress token's `spaces`. -/
def lexer_skip_white_space_go : Nat → lexer_s → Option lexer_s
  | 0, _ => none
  | n+1, L =>
    if !ISSPACE (reader_peek L.reader) || reader_is_empty L.reader ||
        reader_peek L.reader == 10 then
      some L
    else
      lexer_skip_white_space_go n
        { L with reader := (reader_get L.reader).2,
                 tok := { L.tok with spaces := L.tok.spaces + 1 } }

/-- Embeds the `//` branch of `__lexer_skip_comment__` (src/lexer.c): consume
up to but not including the terminating newline.  Leaving the loop because
the reader became empty falls into the trailing `assert(false)`, modelled as
`none`. -/
def lexer_skip_comment_line : Nat → lexer_s → Option lexer_s
  | 0, _ => none
  | n+1, L =>
    if reader_is_empty L.reader then none
    else if reader_peek L.reader = 10 then some L
    else lexer_skip_comment_line n { L with reader := (reader_get L.reader).2 }

/-- Embeds the `/*` branch of `__lexer_skip_comment__` (src/lexer.c): read
characters until a `*` immediately followed by `/`.  The loop guard is
`reader_is_empty`, the emptiness of the stream stack, which never becomes
true while a stream is pushed, even after its buffer is exhausted; the
`ERRORF` after the loop (whose message is `unknown identifier`) is emitted
only on the empty-stack path. -/
def lexer_skip_comment_block : Nat → lexer_s → Option lexer_s
  | 0, _ => none
  | n+1, L =>
    if reader_is_empty L.reader then some (lexer_emit L .unknown_identifier)
    else
      let g := lexer_get L
      if g.1 = 42 then
        let t := lexer_try g.2 47
        if t.1 then some t.2 else lexer_skip_comment_block n t.2
      else lexer_skip_comment_block n g.2

/-- Embeds `__lexer_skip_comment__` (src/lexer.c); reaching the end with
neither branch taken is the trailing `assert(false)`, modelled as `none`. -/
def lexer_skip_comment (fuel : Nat) (L : lexer_s) : Option lexer_s :=
  let t1 := lexer_try L 47
  if t1.1 then lexer_skip_comment_line fuel t1.2
  else
    let t2 := lexer_try L 42
    if t2.1 then lexer_skip_comment_block fuel t2.2
    else none

/-- Embeds `lexer_scan` (src/lexer.c): mark the location, consume a
whitespace run if any, otherwise read one character and dispatch on it
exactly as the C switch does, including the swapped arms of the `!` case. -/
def lexer_scan (fuel : Nat) (L : lexer_s) : Option (token_s × lexer_s) :=
  match lexer_skip_white_space_go fuel (lexer_mark_loc L) with
  | none => none
  | some L =>
    if L.tok.spaces > 0 then some (lexer_make_token L .TOKEN_SPACE)
    else
      let g := lexer_get L
      let ch := g.1
      let L := g.2
      if ch = 10 then some (lexer_make_token L .TOKEN_NEW_LINE)
      else if ch = 91 then some (lexer_make_token L .TOKEN_L_SQUARE)
      else if ch = 93 then some (lexer_make_token L .TOKEN_R_SQUARE)
      else if ch = 40 then some (lexer_make_token L .TOKEN_L_PAREN)
      else if ch = 41 then some (lexer_make_token L .TOKEN_R_PAREN)
      else if ch = 123 then some (lexer_make_token L .TOKEN_L_BRACE)
      else if ch = 125 then some (lexer_make_token L .TOKEN_R_BRACE)
      else if ch = 46 then
        if ISDIGIT (reader_peek L.reader) then lexer_parse_number fuel L ch
        else
          let t1 := lexer_try L 46
          if t1.1 then
            let t2 := lexer_try t1.2 46
            if t2.1 then some (lexer_make_token t2.2 .TOKEN_ELLIPSIS)
            else some (lexer_make_token (lexer_unget_ch t2.2 46) .TOKEN_PERIOD)
          else some (lexer_make_token t1.2 .TOKEN_PERIOD)
      else if ch = 38 then
        let t1 := lexer_try L 38
        if t1.1 then some (lexer_make_token t1.2 .TOKEN_AMPAMP)
        else
          let t2 := lexer_try t1.2 61
          if t2.1 then some (lexer_make_token t2.2 .TOKEN_AMPEQUAL)
          else some (lexer_make_token t2.2 .TOKEN_AMP)
      else if ch = 42 then
        let t := lexer_try L 61
        some (lexer_make_token t.2 (if t.1 then .TOKEN_STAREQUAL else .TOKEN_STAR))
      else if ch = 43 then
        let t1 := lexer_try L 43
        if t1.1 then some (lexer_make_token t1.2 .TOKEN_PLUSPLUS)
        else
          let t2 := lexer_try t1.2 61
          if t2.1 then some (lexer_make_token t2.2 .TOKEN_PLUSEQUAL)
          else some (lexer_make_token t2.2 .TOKEN_PLUS)
      else if ch = 45 then
        let t1 := lexer_try L 62
        if t1.1 then some (lexer_make_token t1.2 .TOKEN_ARROW)
        else
          let t2 := lexer_try t1.2 45
          if t2.1 then some (lexer_make_token t2.2 .TOKEN_MINUSMINUS)
          else
            let t3 := lexer_try t2.2 61
            if t3.1 then some (lexer_make_token t3.2 .TOKEN_MINUSEQUAL)
            else some (lexer_make_token t3.2 .TOKEN_MINUS)
      else if ch = 126 then some (lexer_make_token L .TOKEN_TILDE)
      else if ch = 33 then
        let t := lexer_try L 61
        some (lexer_make_token t.2
          (if t.1 then .TOKEN_EXCLAIM else .TOKEN_EXCLAIMEQUAL))
      else if ch = 47 then
        if reader_test L.reader 47 || reader_test L.reader 42 then
          match lexer_skip_comment fuel L with
          | none => none
          | some L => some (lexer_make_token L .TOKEN_COMMENT)
        else
          let t := lexer_try L 61
          some (lexer_make_token t.2
            (if t.1 then .TOKEN_SLASHEQUAL else .TOKEN_SLASH))
      else if ch = 37 then
        let t1 := lexer_try L 61
        if t1.1 then some (lexer_make_token t1.2 .TOKEN_PERCENTEQUAL)
        else
          let t2 := lexer_try t1.2 62
          if t2.1 then some (lexer_make_token t2.2 .TOKEN_R_BRACE)
          else
            let t3 := lexer_try t2.2 58
            if t3.1 then
              let t4 := lexer_try t3.2 37
              if t4.1 then
                let t5 := lexer_try t4.2 58
                if t5.1 then some (lexer_make_token t5.2 .TOKEN_HASHHASH)
                else some (lexer_make_token (lexer_unget_ch t5.2 37) .TOKEN_HASH)
              else some (lexer_make_token t4.2 .TOKEN_HASH)
            else some (lexer_make_token t3.2 .TOKEN_PERCENT)
      else if ch = 60 then
        let t1 := lexer_try L 60
        if t1.1 then
          let t2 := lexer_try t1.2 61
          some (lexer_make_token t2.2
            (if t2.1 then .TOKEN_LESSLESSEQUAL else .TOKEN_LESSLESS))
        else
          let t2 := lexer_try t1.2 61
          if t2.1 then some (lexer_make_token t2.2 .TOKEN_LESSEQUAL)
          else
            let t3 := lexer_try t2.2 58
            if t3.1 then some (lexer_make_token t3.2 .TOKEN_L_SQUARE)
            else
              let t4 := lexer_try t3.2 37
              if t4.1 then some (lexer_make_token t4.2 .TOKEN_L_BRACE)
              else some (lexer_make_token t4.2 .TOKEN_LESS)
      else if ch = 62 then
        let t1 := lexer_try L 62
        if t1.1 then
          let t2 := lexer_try t1.2 61
          some (lexer_make_token t2.2
            (if t2.1 then .TOKEN_GREATERGREATEREQUAL else .TOKEN_GREATERGREATER))
        else
          let t2 := lexer_try t1.2 61
          if t2.1 then some (lexer_make_token t2.2 .TOKEN_GREATEREQUAL)
          else some (lexer_make_token t2.2 .TOKEN_GREATER)
      else if ch = 94 then
        let t := lexer_try L 61
        some (lexer_make_token t.2
          (if t.1 then .TOKEN_CARETEQUAL else .TOKEN_CARET))
      else if ch = 124 then
        let t1 := lexer_try L 124
        if t1.1 then some (lexer_make_token t1.2 .TOKEN_PIPEPIPE)
        else
          let t2 := lexer_try t1.2 61
          if t2.1 then some (lexer_make_token t2.2 .TOKEN_PIPEEQUAL)
          else some (lexer_make_token t2.2 .TOKEN_PIPE)
      else if ch = 63 then some (lexer_make_token L .TOKEN_QUESTION)
      else if ch = 58 then
        let t := lexer_try L 62
        some (lexer_make_token t.2
          (if t.1 then .TOKEN_R_SQUARE else .TOKEN_COLON))
      else if ch = 59 then some (lexer_make_token L .TOKEN_SEMI)
      else if ch = 61 then
        let t := lexer_try L 61
        some (lexer_make_token t.2
          (if t.1 then .TOKEN_EQUALEQUAL else .TOKEN_EQUAL))
      else if ch = 44 then some (lexer_make_token L .TOKEN_COMMA)
      else if ch = 35 then
        let t := lexer_try L 35
        some (lexer_make_token t.2
          (if t.1 then .TOKEN_HASHHASH else .TOKEN_HASH))
      else if ISDIGIT ch then lexer_parse_number fuel L ch
      else if ch = 117 ∨ ch = 85 ∨ ch = 76 then
        let e := lexer_parse_encoding L ch
        let t1 := lexer_try e.2 34
        if t1.1 then lexer_parse_string fuel t1.2 e.1
        else
          let t2 := lexer_try t1.2 39
          if t2.1 then lexer_parse_character fuel t2.2 e.1
          else lexer_parse_identifier fuel (lexer_unget_ch t2.2 ch)
      else if ch = 39 then lexer_parse_character fuel L .ENCODING_NONE
      else if ch = 34 then lexer_parse_string fuel L .ENCODING_NONE
      else if ch = 92 then
        if reader_test L.reader 117 || reader_test L.reader 85 then
          lexer_parse_identifier fuel L
        else some (lexer_make_token L .TOKEN_BACKSLASH)
      else if ch = EOF then some (lexer_make_token L .TOKEN_END)
      else if ISALPHA ch || (decide (128 ≤ ch) && decide (ch ≤ 253)) ||
              ch == 95 || ch == 36 then
        lexer_parse_identifier fuel (lexer_unget_ch L ch)
      else none

/-- Embeds the trivia-skipping loop of `lexer_next` (src/lexer.c): scan,
destroying and re-scanning while the token is a whitespace run or a comment,
counting each skipped token in `leading_space`. -/
def lexer_next_go : Nat → lexer_s → Nat → Option (token_s × Nat × lexer_s)
  | 0, _, _ => none
  | n+1, L, leading =>
    match lexer_scan (n+1) L with
    | none => none
    | some r =>
      if r.1.type = .TOKEN_SPACE ∨ r.1.type = .TOKEN_COMMENT then
        lexer_next_go n r.2 (leading + 1)
      else some (r.1, leading, r.2)

/-- Embeds `lexer_next` (src/lexer.c): pop the active token stash if it is
non-empty; otherwise record whether the reader's current line is 1, scan past
trivia, and stamp the substantive token's beginning-of-line flag and leading
space count.  The C code asserts a snapshot stack exists; an empty stack is
modelled as `none`. -/
def lexer_next (fuel : Nat) (L : lexer_s) : Option (token_s × lexer_s) :=
  match L.snapshots with
  | [] => none
  | ts :: rest =>
    match ts with
    | t :: ts2 => some (t, { L with snapshots := ts2 :: rest })
    | [] =>
      match lexer_next_go fuel L 0 with
      | none => none
      | some r =>
        some ({ r.1 with
                  begin_of_line := if reader_line L.reader = 1 then true else false,
                  spaces := r.2.1 },
              r.2.2)

/-- Lexer over a single in-memory string stream, as built by
`reader_create` plus `reader_push(STREAM_TYPE_STRING, s)` plus
`lexer_create` (src/reader.c, src/lexer.c): one stream, one empty snapshot
stack, a cleared in-progress token and no diagnostics. -/
def lexer_on_string (bytes : List Nat) : lexer_s :=
  { reader := [stream_of_string bytes], tok := token_init_tok,
    snapshots := [[]], diags := [] }

/-- Kinds and literals of the first `k` tokens produced by repeated
`lexer_scan`, each call with the given fuel. -/
def lexer_scan_list : Nat → Nat → lexer_s → Option (List (token_type_t × List Nat))
  | 0, _, _ => some []
  | k+1, fuel, L =>
    match lexer_scan fuel L with
    | none => none
    | some r => (lexer_scan_list k fuel r.2).map (fun l => (r.1.type, r.1.cs) :: l)

/-- Embeds `token_dictionary` (src/token.c): kind, debug name, and original
spelling, in source order, including the swapped parenthesis spellings. -/
def token_dictionary : List (token_type_t × String × String) :=
  [ (.TOKEN_L_SQUARE, "TOKEN_L_SQUARE", "["),
    (.TOKEN_R_SQUARE, "TOKEN_R_SQUARE", "]"),
    (.TOKEN_L_PAREN, "TOKEN_L_PAREN", ")"),
    (.TOKEN_R_PAREN, "TOKEN_R_PAREN", "("),
    (.TOKEN_L_BRACE, "TOKEN_L_BRACE", "\x7b"),
    (.TOKEN_R_BRACE, "TOKEN_R_BRACE", "\x7d"),
    (.TOKEN_PERIOD, "TOKEN_PERIOD", "."),
    (.TOKEN_ELLIPSIS, "TOKEN_ELLIPSIS", "..."),
    (.TOKEN_AMP, "TOKEN_AMP", "&"),
    (.TOKEN_AMPAMP, "TOKEN_AMPAMP", "&&"),
    (.TOKEN_AMPEQUAL, "TOKEN_AMPEQUAL", "&="),
    (.TOKEN_STAR, "TOKEN_STAR", "*"),
    (.TOKEN_STAREQUAL, "TOKEN_STAREQUAL", "*="),
    (.TOKEN_PLUS, "TOKEN_PLUS", "+"),
    (.TOKEN_PLUSPLUS, "TOKEN_PLUSPLUS", "++"),
    (.TOKEN_PLUSEQUAL, "TOKEN_PLUSEQUAL", "+="),
    (.TOKEN_MINUS, "TOKEN_MINUS", "-"),
    (.TOKEN_MINUSMINUS, "TOKEN_MINUSMINUS", "--"),
    (.TOKEN_MINUSEQUAL, "TOKEN_MINUSEQUAL", "-="),
    (.TOKEN_ARROW, "TOKEN_ARROW", "->"),
    (.TOKEN_TILDE, "TOKEN_TILDE", "~"),
    (.TOKEN_EXCLAIM, "TOKEN_EXCLAIM", "!"),
    (.TOKEN_EXCLAIMEQUAL, "TOKEN_EXCLAIMEQUAL", "!="),
    (.TOKEN_SLASH, "TOKEN_SLASH", "/"),
    (.TOKEN_SLASHEQUAL, "TOKEN_SLASHEQUAL", "/="),
    (.TOKEN_PERCENT, "TOKEN_PERCENT", "%"),
    (.TOKEN_PERCENTEQUAL, "TOKEN_PERCENTEQUAL", "%="),
    (.TOKEN_LESS, "TOKEN_LESS", "<"),
    (.TOKEN_LESSLESS, "TOKEN_LESSLESS", "<<"),
    (.TOKEN_LESSLESSEQUAL, "TOKEN_LESSLESSEQUAL", "<<="),
    (.TOKEN_LESSEQUAL, "TOKEN_LESSEQUAL", "<="),
    (.TOKEN_GREATER, "TOKEN_GREATER", ">"),
    (.TOKEN_GREATERGREATER, "TOKEN_GREATERGREATER", ">>"),
    (.TOKEN_GREATEREQUAL, "TOKEN_GREATEREQUAL", ">="),
    (.TOKEN_GREATERGREATEREQUAL, "TOKEN_GREATERGREATEREQUAL", ">>="),
    (.TOKEN_CARET, "TOKEN_CARET", "^"),
    (.TOKEN_CARETEQUAL, "TOKEN_CARETEQUAL", "^="),
    (.TOKEN_PIPE, "TOKEN_PIPE", "|"),
    (.TOKEN_PIPEPIPE, "TOKEN_PIPEPIPE", "||"),
    (.TOKEN_PIPEEQUAL, "TOKEN_PIPEEQUAL", "|="),
    (.TOKEN_QUESTION, "TOKEN_QUESTION", "?"),
    (.TOKEN_COLON, "TOKEN_COLON", ":"),
    (.TOKEN_SEMI, "TOKEN_SEMI", ";"),
    (.TOKEN_EQUAL, "TOKEN_EQUAL", "="),
    (.TOKEN_EQUALEQUAL, "TOKEN_EQUALEQUAL", "=="),
    (.TOKEN_COMMA, "TOKEN_COMMA", ","),
    (.TOKEN_HASH, "TOKEN_HASH", "#"),
    (.TOKEN_HASHHASH, "TOKEN_HASHHASH", "##"),
    (.TOKEN_BACKSLASH, "TOKEN_BACKSLASH", "\\"),
    (.TOKEN_NEW_LINE, "TOKEN_NEW_LINE", "\\n"),
    (.TOKEN_SPACE, "TOKEN_SPACE", "spaces"),
    (.TOKEN_COMMENT, "TOKEN_COMMENT", "comment") ]

/-- Original-spelling lookup over `token_dictionary` (src/token.c), the
linear search `token_type2str` performs, projected on the `original`
column. -/
def token_original_spelling (t : token_type_t) : Option String :=
  (token_dictionary.find? (fun e => e.1 == t)).map (fun e => e.2.2)

/-- Embeds `token_type2str` (src/token.c): linear search of the dictionary,
projected on the debug-name column. -/
def token_type2str (t : token_type_t) : Option String :=
  (token_dictionary.find? (fun e => e.1 == t)).map (fun e => e.2.1)

/-- Identifier-continue set named by claim C9, written from the claim's own
words: alphanumeric, underscore, `$`, or a byte in [0x80,0xFD] (universal
character names are handled at the sequence level in `specNumberMunch`). -/
def specIdCont (c : Nat) : Bool :=
  decide ((48 ≤ c ∧ c ≤ 57) ∨ (65 ≤ c ∧ c ≤ 90) ∨ (97 ≤ c ∧ c ≤ 122)) ||
  c == 95 || c == 36 || (decide (128 ≤ c) && decide (c ≤ 253))

/-- Hex-digit test on bytes, for `specNumberMunch`. -/
def specIsHex (c : Nat) : Bool :=
  decide ((48 ≤ c ∧ c ≤ 57) ∨ (97 ≤ c ∧ c ≤ 102) ∨ (65 ≤ c ∧ c ≤ 70))

/-- Maximal pp-number continuation named by claim C9, written from the
claim's own words: every subsequent character is an identifier-continue
character, a `\u`/`\U` universal character name, a period, a single-quote
digit separator, or a sign immediately preceded by `e`, `E`, `p` or `P`.
This spec-side definition exists only to be compared against the code's
`lexer_parse_number`. -/
def specNumberMunch : Nat → List Nat → Nat → List Nat
  | 0, _, _ => []
  | _+1, [], _ => []
  | f+1, c :: rest, prev =>
    if c = 92 ∧ rest.head? = some 117 ∧ ((rest.drop 1).take 4).length = 4 ∧
        ((rest.drop 1).take 4).all specIsHex then
      (92 :: 117 :: (rest.drop 1).take 4) ++ specNumberMunch f (rest.drop 5) 0
    else if c = 92 ∧ rest.head? = some 85 ∧ ((rest.drop 1).take 8).length = 8 ∧
        ((rest.drop 1).take 8).all specIsHex then
      (92 :: 85 :: (rest.drop 1).take 8) ++ specNumberMunch f (rest.drop 9) 0
    else if specIdCont c || c == 46 || c == 39 ||
        ((c == 43 || c == 45) &&
          (prev == 101 || prev == 69 || prev == 112 || prev == 80)) then
      c :: specNumberMunch f rest c
    else []

/-- Reading at or past the end of the buffer yields the trailing NUL. -/
theorem byteAt_of_ge {buf : List Nat} {i : Nat} (h : buf.length ≤ i) :
    byteAt buf i = 0 := by
  simp [byteAt, List.getD_eq_getElem?_getD, List.getElem?_eq_none h]

/-- A non-NUL byte can only be read inside the buffer. -/
theorem lt_of_byteAt_ne {buf : List Nat} {i : Nat} (h : byteAt buf i ≠ 0) :
    i < buf.length := by
  by_contra hh
  exact h (byteAt_of_ge (Nat.le_of_not_lt hh))

/-- The backslash look-ahead loop splices strictly forward and never past the
end sentinel. -/
theorem scanBsGo_splice {n : Nat} {buf : List Nat} {pc p : Nat}
    (h : scanBsGo n buf pc = .splice p) : pc < p ∧ p ≤ buf.length := by
  induction n generalizing pc with
  | zero =>
    simp only [scanBsGo] at h
    split at h <;> simp_all
  | succ n ih =>
    simp only [scanBsGo] at h
    by_cases hlt : pc < buf.length
    · rw [if_pos hlt] at h
      by_cases hsp : (ISSPACE (byteAt buf pc : Int) : Prop)
      · rw [if_pos hsp] at h
        by_cases h13 : byteAt buf pc = 13
        · rw [if_pos h13] at h
          by_cases h10 : byteAt buf (pc + 1) = 10
          · rw [if_pos h10] at h
            have hin : pc + 1 < buf.length := lt_of_byteAt_ne (by omega)
            cases h
            omega
          · rw [if_neg h10] at h
            cases h
            omega
        · rw [if_neg h13] at h
          by_cases h10 : byteAt buf pc = 10
          · rw [if_pos h10] at h
            cases h
            omega
          · rw [if_neg h10] at h
            have := ih h
            omega
      · rw [if_neg hsp] at h
        cases h
    · rw [if_neg hlt] at h
      cases h

/-- Splice bounds for the fuelled wrapper. -/
theorem scanBs_splice {buf : List Nat} {pc p : Nat}
    (h : scanBs buf pc = .splice p) : pc < p ∧ p ≤ buf.length :=
  scanBsGo_splice h

/-- The buffer loop of `__stream_next__` changes only the cursor and the
positional fields. -/
theorem nextRawGo_frame (n : Nat) (s : stream_s) :
    (nextRawGo n s).2.buf = s.buf ∧ (nextRawGo n s).2.stashed = s.stashed ∧
    (nextRawGo n s).2.lastch = s.lastch ∧ (nextRawGo n s).2.fn = s.fn := by
  induction n generalizing s with
  | zero => simp [nextRawGo]
  | succ n ih =>
    simp only [nextRawGo]
    by_cases hlt : s.pc < s.buf.length
    · rw [if_pos hlt]
      by_cases h13 : (byteAt s.buf s.pc : Int) = 13
      · rw [if_pos h13]
        split <;> simp
      · rw [if_neg h13]
        by_cases h10 : (byteAt s.buf s.pc : Int) = 10
        · rw [if_pos h10]
          simp
        · rw [if_neg h10]
          by_cases h92 : (byteAt s.buf s.pc : Int) = 92
          · rw [if_pos h92]
            rcases hbs : scanBs s.buf (s.pc + 1) with p | _ | _ <;> simp
            exact ih _
          · rw [if_neg h92]
            simp
    · rw [if_neg hlt]
      simp

/-- The buffer loop never moves the cursor backwards, and keeps it inside
the buffer bounds. -/
theorem nextRawGo_pc (n : Nat) (s : stream_s) (hub : s.pc ≤ s.buf.length) :
    s.pc ≤ (nextRawGo n s).2.pc ∧ (nextRawGo n s).2.pc ≤ s.buf.length := by
  induction n generalizing s with
  | zero => simpa [nextRawGo] using hub
  | succ n ih =>
    simp only [nextRawGo]
    by_cases hlt : s.pc < s.buf.length
    · rw [if_pos hlt]
      by_cases h13 : (byteAt s.buf s.pc : Int) = 13
      · rw [if_pos h13]
        by_cases h10 : byteAt s.buf (s.pc + 1) = 10
        · rw [if_pos h10]
          have hin : s.pc + 1 < s.buf.length := lt_of_byteAt_ne (by omega)
          simp
          omega
        · rw [if_neg h10]
          simp
          omega
      · rw [if_neg h13]
        by_cases h10 : (byteAt s.buf s.pc : Int) = 10
        · rw [if_pos h10]
          simp
          omega
        · rw [if_neg h10]
          by_cases h92 : (byteAt s.buf s.pc : Int) = 92
          · rw [if_pos h92]
            rcases hbs : scanBs s.buf (s.pc + 1) with p | _ | _
            · have hb := scanBs_splice hbs
              have := ih { s with pc := p, line := s.line + 1, column := 1,
                                  line_note := p } (by simpa using hb.2)
              simp at this ⊢
              omega
            · simp
              omega
            · simp
              omega
          · rw [if_neg h92]
            simp
            omega
    · rw [if_neg hlt]
      simpa using hub

/-- The buffer loop returns the end sentinel only when the previously
delivered character was a newline or the sentinel itself. -/
theorem nextRawGo_eof {n : Nat} {s : stream_s}
    (h : (nextRawGo n s).1 = EOF) : s.lastch = 10 ∨ s.lastch = EOF := by
  induction n generalizing s with
  | zero =>
    simp only [nextRawGo] at h
    split at h
    · assumption
    · exact absurd h (by simp [EOF])
  | succ n ih =>
    simp only [nextRawGo] at h
    by_cases hlt : s.pc < s.buf.length
    · rw [if_pos hlt] at h
      by_cases h13 : (byteAt s.buf s.pc : Int) = 13
      · rw [if_pos h13] at h
        split at h <;> exact absurd h (by simp [EOF])
      · rw [if_neg h13] at h
        by_cases h10 : (byteAt s.buf s.pc : Int) = 10
        · rw [if_pos h10] at h
          exact absurd h (by simp [EOF])
        · rw [if_neg h10] at h
          by_cases h92 : (byteAt s.buf s.pc : Int) = 92
          · rw [if_pos h92] at h
            rcases hbs : scanBs s.buf (s.pc + 1) with p | _ | _ <;>
              simp only [hbs] at h
            · exact ih (s := { s with pc := p, line := s.line + 1,
                                      column := 1, line_note := p }) h
            · exact absurd h (by simp [EOF])
            · exact absurd h (by simp [EOF])
          · rw [if_neg h92] at h
            have : (0 : Int) ≤ (byteAt s.buf s.pc : Int) := Int.natCast_nonneg _
            simp only [EOF] at h
            omega
    · rw [if_neg hlt] at h
      split at h
      · assumption
      · exact absurd h (by simp [EOF])

/-- When the buffer loop delivers anything but the end sentinel, it either
advances the cursor or synthesizes the single end-of-buffer newline while
leaving the state untouched. -/
theorem nextRawGo_adv {n : Nat} {s : stream_s}
    (hn : s.buf.length - s.pc < n) (hub : s.pc ≤ s.buf.length)
    (hne : (nextRawGo n s).1 ≠ EOF) :
    s.pc < (nextRawGo n s).2.pc ∨
      ((nextRawGo n s).2 = s ∧ (nextRawGo n s).1 = 10 ∧
       s.buf.length ≤ s.pc ∧ ¬(s.lastch = 10 ∨ s.lastch = EOF)) := by
  induction n generalizing s with
  | zero => omega
  | succ n ih =>
    simp only [nextRawGo] at hne ⊢
    by_cases hlt : s.pc < s.buf.length
    · rw [if_pos hlt] at hne ⊢
      by_cases h13 : (byteAt s.buf s.pc : Int) = 13
      · rw [if_pos h13] at hne ⊢
        left
        split
        · show s.pc < s.pc + 2
          omega
        · show s.pc < s.pc + 1
          omega
      · rw [if_neg h13] at hne ⊢
        by_cases h10 : (byteAt s.buf s.pc : Int) = 10
        · rw [if_pos h10] at hne ⊢
          left
          show s.pc < s.pc + 1
          omega
        · rw [if_neg h10] at hne ⊢
          by_cases h92 : (byteAt s.buf s.pc : Int) = 92
          · rw [if_pos h92] at hne ⊢
            rcases hbs : scanBs s.buf (s.pc + 1) with p | _ | _ <;>
              simp only [hbs] at hne ⊢
            · have hb := scanBs_splice hbs
              have hrec := ih
                (s := { s with pc := p, line := s.line + 1, column := 1,
                               line_note := p })
                (by simp; omega) (by simpa using hb.2) hne
              left
              rcases hrec with h | h
              · simp at h
                omega
              · have hp := congrArg stream_s.pc h.1
                simp at hp
                omega
            · left
              show s.pc < s.buf.length
              omega
            · left
              show s.pc < s.pc + 1
              omega
          · rw [if_neg h92] at hne ⊢
            left
            show s.pc < s.pc + 1
            omega
    · rw [if_neg hlt] at hne ⊢
      by_cases hc : s.lastch = 10 ∨ s.lastch = EOF
      · rw [if_pos hc] at hne
        exact absurd rfl hne
      · rw [if_neg hc] at hne ⊢
        right
        exact ⟨rfl, rfl, by omega, hc⟩

/-- The peek loop computes exactly the character the get loop would deliver
from the same cursor, line state aside. -/
theorem peekRawGo_eq {n : Nat} {s : stream_s}
    (hn : s.buf.length - s.pc < n) :
    peekRawGo n s.buf s.pc s.lastch = (nextRawGo n s).1 := by
  induction n generalizing s with
  | zero => omega
  | succ n ih =>
    simp only [peekRawGo, nextRawGo]
    by_cases hlt : s.pc < s.buf.length
    · rw [if_pos hlt, if_pos hlt]
      by_cases h13 : (byteAt s.buf s.pc : Int) = 13
      · rw [if_pos (Or.inl h13), if_pos h13]
        split <;> rfl
      · by_cases h10 : (byteAt s.buf s.pc : Int) = 10
        · rw [if_pos (Or.inr h10), if_neg h13, if_pos h10]
        · rw [if_neg (by simp [h13, h10]), if_neg h13, if_neg h10]
          by_cases h92 : (byteAt s.buf s.pc : Int) = 92
          · rw [if_pos h92, if_pos h92]
            rcases hbs : scanBs s.buf (s.pc + 1) with p | _ | _ <;>
              simp only [hbs]
            have hb := scanBs_splice hbs
            exact ih (s := { s with pc := p, line := s.line + 1, column := 1,
                                    line_note := p }) (by simp; omega)
          · rw [if_neg h92, if_neg h92]
    · rw [if_neg hlt, if_neg hlt]

/-- Peek agrees with get on any stream state (`__stream_peek__` against
`__stream_next__`, src/reader.c). -/
theorem stream_peek_eq_next (s : stream_s) :
    stream_peek s = (stream_next s).1 := by
  rcases hst : s.stashed with _ | ⟨c, rest⟩
  · simp only [stream_peek, stream_next, hst]
    exact peekRawGo_eq (by omega)
  · simp [stream_peek, stream_next, hst]

/-- Peek agrees with get at the reader level. -/
theorem reader_peek_eq (r : List stream_s) :
    reader_peek r = (reader_get r).1 := by
  cases r with
  | nil => rfl
  | cons s rest => simpa [reader_peek, reader_get] using stream_peek_eq_next s

/-- Delivering a character records it as the stream's last character. -/
theorem stream_next_lastch (s : stream_s) :
    (stream_next s).2.lastch = (stream_next s).1 := by
  rcases hst : s.stashed with _ | ⟨c, rest⟩ <;> simp [stream_next, hst]

/-- With an empty stash, delivery keeps the buffer and the stash. -/
theorem stream_next_frame {s : stream_s} (h : s.stashed = []) :
    (stream_next s).2.buf = s.buf ∧ (stream_next s).2.stashed = [] := by
  have hf := nextRawGo_frame (s.buf.length - s.pc + 1) s
  simp only [stream_next, h]
  exact ⟨hf.1, by rw [hf.2.1, h]⟩

/-- With an empty stash, the end sentinel is delivered only after a newline
or a previous end sentinel. -/
theorem stream_next_eof {s : stream_s} (hst : s.stashed = [])
    (h : (stream_next s).1 = EOF) : s.lastch = 10 ∨ s.lastch = EOF := by
  simp only [stream_next, hst] at h
  exact nextRawGo_eof h

/-- With an empty stash, every delivery other than the end sentinel strictly
decreases the stream measure and keeps the cursor in bounds. -/
theorem stream_next_measure {s : stream_s} (hst : s.stashed = [])
    (hub : s.pc ≤ s.buf.length) (hne : (stream_next s).1 ≠ EOF) :
    streamMeasure (stream_next s).2 < streamMeasure s ∧
      (stream_next s).2.pc ≤ s.buf.length := by
  have hf := nextRawGo_frame (s.buf.length - s.pc + 1) s
  have hp := nextRawGo_pc (s.buf.length - s.pc + 1) s hub
  simp only [stream_next, hst] at hne ⊢
  have hadv := nextRawGo_adv (n := s.buf.length - s.pc + 1) (by omega) hub hne
  rcases hadv with h | h
  · constructor
    · simp only [streamMeasure, hf.1]
      split <;> split <;> omega
    · exact hp.2
  · refine ⟨?_, by rw [h.1]; exact hub⟩
    simp only [streamMeasure, h.1, h.2.1]
    rw [if_neg h.2.2.2]
    split_ifs with hcond
    · omega
    · exact absurd (by simp) hcond

/-- With enough fuel (any bound above the stream measure), collecting the
delivered characters reaches the end sentinel. -/
theorem collect_total :
    ∀ (n : Nat) (s : stream_s), s.stashed = [] → s.pc ≤ s.buf.length →
      streamMeasure s < n → ∃ cs, collect s n = some cs := by
  intro n
  induction n with
  | zero => omega
  | succ n ih =>
    intro s hst hub hm
    simp only [collect]
    by_cases he : (stream_next s).1 = EOF
    · rw [if_pos he]
      exact ⟨[], rfl⟩
    · rw [if_neg he]
      have hfr := stream_next_frame hst
      have hme := stream_next_measure hst hub he
      obtain ⟨cs, hcs⟩ := ih (stream_next s).2 hfr.2 (by rw [hfr.1]; exact hme.2)
        (by omega)
      exact ⟨_, by rw [hcs]; rfl⟩

/-- Whenever collection succeeds from an empty-stash stream, an empty result
means the last character was already a newline or the sentinel, and a
non-empty result ends with a newline. -/
theorem collect_last :
    ∀ (n : Nat) (s : stream_s) (cs : List Int), s.stashed = [] →
      collect s n = some cs →
      (cs = [] → s.lastch = 10 ∨ s.lastch = EOF) ∧
      (cs ≠ [] → cs.getLast? = some 10) := by
  intro n
  induction n with
  | zero => intro s cs _ h; simp [collect] at h
  | succ n ih =>
    intro s cs hst h
    simp only [collect] at h
    by_cases he : (stream_next s).1 = EOF
    · rw [if_pos he] at h
      cases h
      exact ⟨fun _ => stream_next_eof hst he, fun hne => absurd rfl hne⟩
    · rw [if_neg he] at h
      rcases hmap : collect (stream_next s).2 n with _ | cs2
      · rw [hmap] at h
        cases h
      · rw [hmap] at h
        cases h
        have hfr := stream_next_frame hst
        have hih := ih (stream_next s).2 cs2 hfr.2 hmap
        refine ⟨fun hcontra => absurd hcontra (List.cons_ne_nil _ _), fun _ => ?_⟩
        rcases hcs2 : cs2 with _ | ⟨b, l⟩
        · have hl := hih.1 hcs2
          rw [stream_next_lastch] at hl
          rcases hl with hl | hl
          · simp [hl]
          · exact absurd hl he
        · rw [List.getLast?_cons_cons]
          rw [hcs2] at hih
          exact hih.2 (by simp)

/-- Iterating the reader commutes with one leading get. -/
theorem reader_iter_shift (k : Nat) (r : List stream_s) :
    reader_iter (reader_get r).2 k = reader_iter r (k + 1) := by
  induction k with
  | zero => rfl
  | succ k ih => simp only [reader_iter, ih]

/-- The character stream seen after one get is the original one shifted. -/
theorem reader_chr_shift (k : Nat) (r : List stream_s) :
    reader_chr (reader_get r).2 k = reader_chr r (k + 1) := by
  simp [reader_chr, reader_iter_shift]

/-- The first character of the stream is the peeked one. -/
theorem reader_chr_zero (r : List stream_s) :
    reader_chr r 0 = reader_peek r := by
  rw [reader_peek_eq]
  rfl

/-- At the end of the buffer with an empty stash, one get returns the end
sentinel or synthesizes a single newline, depending on the last delivered
character, and changes nothing else. -/
theorem stream_next_at_end {s : stream_s} (h1 : s.stashed = [])
    (h2 : s.buf.length ≤ s.pc) :
    stream_next s = (if s.lastch = 10 ∨ s.lastch = EOF then EOF else 10,
      { s with lastch := if s.lastch = 10 ∨ s.lastch = EOF then EOF else 10 }) := by
  have hz : s.buf.length - s.pc = 0 := by omega
  simp only [stream_next, h1, hz, nextRawGo,
    if_neg (by omega : ¬ s.pc < s.buf.length)]

/-- Claim C3: with the put-back stash empty and the cursor at the end of the
buffer, get returns the end sentinel exactly when the previously delivered
character was a newline or the sentinel; otherwise it delivers exactly one
synthesized newline (the very next get returns the sentinel); consequently
the characters delivered from a fresh stream over any buffer, the empty one
included, end with a newline immediately followed by the sentinel. -/
theorem c3_end_of_buffer_newline (s : stream_s) (h1 : s.stashed = [])
    (h2 : s.buf.length ≤ s.pc) :
    ((s.lastch = 10 ∨ s.lastch = EOF) →
      stream_next s = (EOF, { s with lastch := EOF }))
    ∧ (¬(s.lastch = 10 ∨ s.lastch = EOF) →
        stream_next s = (10, { s with lastch := 10 })
        ∧ (stream_next { s with lastch := 10 }).1 = EOF)
    ∧ ∃ cs, collect (stream_of_string s.buf) (2 * s.buf.length + 2) = some cs ∧
        cs ≠ [] ∧ cs.getLast? = some 10 := by
  refine ⟨?_, ?_, ?_⟩
  · intro hc
    rw [stream_next_at_end h1 h2, if_pos hc]
  · intro hc
    constructor
    · rw [stream_next_at_end h1 h2, if_neg hc]
    · rw [stream_next_at_end (s := { s with lastch := 10 }) h1 h2]
      simp
  · have hm : streamMeasure (stream_of_string s.buf) < 2 * s.buf.length + 2 := by
      simp only [streamMeasure, stream_of_string]
      rw [if_neg (by simp [EOF])]
      omega
    obtain ⟨cs, hcs⟩ := collect_total (2 * s.buf.length + 2) (stream_of_string s.buf)
      rfl (by simp [stream_of_string]) hm
    have hlast := collect_last _ _ _ rfl hcs
    have hne : cs ≠ [] := by
      intro hnil
      have := hlast.1 hnil
      simp [stream_of_string, EOF] at this
    exact ⟨cs, hcs, hne, hlast.2 hne⟩

/-- Witness for C3 at a stream whose single byte has been consumed: the next
get synthesizes one newline and the one after returns the sentinel. -/
theorem c3_end_of_buffer_newline_witness :
    stream_next { buf := [65], pc := 1, line := 1, column := 2, line_note := 0,
                  stashed := [], lastch := 65, fn := "<string>" } =
      (10, { buf := [65], pc := 1, line := 1, column := 2, line_note := 0,
             stashed := [], lastch := 10, fn := "<string>" })
    ∧ (stream_next { buf := [65], pc := 1, line := 1, column := 2,
                     line_note := 0, stashed := [], lastch := 10,
                     fn := "<string>" }).1 = EOF :=
  (c3_end_of_buffer_newline
    { buf := [65], pc := 1, line := 1, column := 2, line_note := 0,
      stashed := [], lastch := 65, fn := "<string>" }
    rfl (by decide)).2.1 (by decide)

/-- Claim C4: peek returns exactly the value an immediately following get
would deliver, on every reader state.  In the embedding `stream_peek` is a
pure function of the state, mirroring that `__stream_peek__` writes through
no pointer, so the state-preservation half of the claim holds by
construction and repeated peeks trivially agree. -/
theorem c4_peek_matches_get (s : stream_s) :
    stream_peek s = (stream_next s).1 :=
  stream_peek_eq_next s

/-- Claim C6 as amended: with the stash empty, a delivered byte other than
carriage return, line feed and backslash advances the column by exactly one
and keeps the line; a physical newline delivers a line feed, resets the
column to 1 and advances the line by one; a delivered non-splicing backslash
leaves the column (and line) unchanged; and the newlines synthesized for a
backslash at end of file or at the end of the buffer leave both line and
column unchanged. -/
theorem c6_amended_column_discipline (s : stream_s) (hst : s.stashed = []) :
    (s.pc < s.buf.length →
      (((byteAt s.buf s.pc : Int) ≠ 13 → (byteAt s.buf s.pc : Int) ≠ 10 →
        (byteAt s.buf s.pc : Int) ≠ 92 →
         stream_next s = ((byteAt s.buf s.pc : Int),
           { s with pc := s.pc + 1, column := s.column + 1,
                    lastch := (byteAt s.buf s.pc : Int) }))
       ∧ ((byteAt s.buf s.pc : Int) = 13 ∨ (byteAt s.buf s.pc : Int) = 10 →
           (stream_next s).1 = 10 ∧ (stream_next s).2.column = 1 ∧
           (stream_next s).2.line = s.line + 1)
       ∧ ((byteAt s.buf s.pc : Int) = 92 → scanBs s.buf (s.pc + 1) = .plain →
           stream_next s = (92, { s with pc := s.pc + 1, lastch := 92 }))
       ∧ ((byteAt s.buf s.pc : Int) = 92 → scanBs s.buf (s.pc + 1) = .eofNl →
           stream_next s = (10, { s with pc := s.buf.length, lastch := 10 }))))
    ∧ (s.buf.length ≤ s.pc → ¬(s.lastch = 10 ∨ s.lastch = EOF) →
        stream_next s = (10, { s with lastch := 10 })) := by
  constructor
  · intro hpc
    refine ⟨?_, ?_, ?_, ?_⟩
    · intro h13 h10 h92
      simp only [stream_next, hst, nextRawGo, if_pos hpc, if_neg h13,
        if_neg h10, if_neg h92]
    · intro hb
      rcases hb with h13 | h10
      · simp only [stream_next, hst, nextRawGo, if_pos hpc, if_pos h13]
        by_cases hlf : byteAt s.buf (s.pc + 1) = 10
        · rw [if_pos hlf]
          exact ⟨by simp, by simp, by simp⟩
        · rw [if_neg hlf]
          exact ⟨by simp, by simp, by simp⟩
      · have h13 : (byteAt s.buf s.pc : Int) ≠ 13 := by omega
        simp only [stream_next, hst, nextRawGo, if_pos hpc, if_neg h13,
          if_pos h10]
        exact ⟨by simp, by simp, by simp⟩
    · intro h92 hbs
      simp only [stream_next, hst, nextRawGo, if_pos hpc,
        if_neg (by omega : ¬ (byteAt s.buf s.pc : Int) = 13),
        if_neg (by omega : ¬ (byteAt s.buf s.pc : Int) = 10), if_pos h92, hbs]
    · intro h92 hbs
      simp only [stream_next, hst, nextRawGo, if_pos hpc,
        if_neg (by omega : ¬ (byteAt s.buf s.pc : Int) = 13),
        if_neg (by omega : ¬ (byteAt s.buf s.pc : Int) = 10), if_pos h92, hbs]
  · intro h2 hc
    rw [stream_next_at_end hst h2, if_neg hc]

/-- Witness for C6 at two one-line streams: a delivered `a` advances the
column, while a delivered non-splicing backslash does not. -/
theorem c6_amended_column_discipline_witness :
    stream_next (stream_of_string [97]) =
      (97, { stream_of_string [97] with pc := 1, column := 2, lastch := 97 })
    ∧ stream_next (stream_of_string [92, 97]) =
      (92, { stream_of_string [92, 97] with pc := 1, lastch := 92 }) :=
  ⟨((c6_amended_column_discipline (stream_of_string [97]) rfl).1
      (by decide)).1 (by decide) (by decide) (by decide),
   ((c6_amended_column_discipline (stream_of_string [92, 97]) rfl).1
      (by decide)).2.2.1 (by decide) (by decide)⟩

/-- Counterexample to claim C6 as stated: on the buffer `\a` the first get
delivers the backslash, which is not a newline, yet the column does not
increase by one (it stays 1). -/
theorem c6_counterexample :
    (stream_next (stream_of_string [92, 97])).1 ≠ 10
    ∧ (stream_next (stream_of_string [92, 97])).2.column =
        (stream_of_string [92, 97]).column
    ∧ ¬((stream_next (stream_of_string [92, 97])).2.column =
        (stream_of_string [92, 97]).column + 1) := by
  refine ⟨by decide, by decide, by decide⟩

/-- Claim C9 as amended: the pp-number loop consumes exactly the maximal
prefix of the logical character stream in which every character is accepted
by `number_accepts` (alphanumeric or underscore via `ISIDNUM`, a period, a
single-quote separator, or a sign immediately preceded by `e`, `E`, `p` or
`P` — `$`, bytes at or above 0x80 and `\u`/`\U` escapes do not continue a
number): given the index `K` of the first rejected character, the loop
appends precisely the first `K` delivered characters (byte-truncated) to the
literal and leaves the reader exactly `K` characters further on, so no
accepted character is left unconsumed and nothing past the prefix is
consumed. -/
theorem c9_amended_maximal_munch (K : Nat) (L : lexer_s) (p0 : Int)
    (fuel : Nat)
    (hacc : ∀ j, j < K → number_accepts (reader_chr L.reader j)
      (if j = 0 then p0 else reader_chr L.reader (j - 1)) = true)
    (hstop : number_accepts (reader_chr L.reader K)
      (if K = 0 then p0 else reader_chr L.reader (K - 1)) = false)
    (hfuel : K < fuel) :
    lexer_parse_number_go fuel L p0 =
      some { L with reader := reader_iter L.reader K,
                    tok := { L.tok with cs := L.tok.cs ++ (List.range K).map (fun j => ((reader_chr L.reader j) % 256).toNat) } } := by
  induction K generalizing L p0 fuel with
  | zero =>
    obtain ⟨f, rfl⟩ : ∃ f, fuel = f + 1 := ⟨fuel - 1, by omega⟩
    have hstop2 : number_accepts (reader_peek L.reader) p0 = false := by
      have := hstop
      rwa [if_pos rfl, reader_chr_zero] at this
    simp only [lexer_parse_number_go]
    rw [if_neg (by simp [hstop2])]
    simp [reader_iter]
  | succ K ih =>
    obtain ⟨f, rfl⟩ : ∃ f, fuel = f + 1 := ⟨fuel - 1, by omega⟩
    have h0 : number_accepts (reader_peek L.reader) p0 = true := by
      have := hacc 0 (Nat.succ_pos K)
      rwa [if_pos rfl, reader_chr_zero] at this
    simp only [lexer_parse_number_go]
    rw [if_pos (by simp [h0])]
    rw [ih _ _ f ?hacc2 ?hstop2 (by omega)]
    case hacc2 =>
      intro j hj
      simp only [reader_chr_shift]
      rcases j with _ | m
      · rw [if_pos rfl]
        have := hacc 1 (by omega)
        rw [if_neg (by omega)] at this
        rw [← reader_chr_zero]
        simpa using this
      · rw [if_neg (by omega)]
        have := hacc (m + 2) (by omega)
        rw [if_neg (by omega)] at this
        simpa using this
    case hstop2 =>
      simp only [reader_chr_shift]
      rcases hK : K with _ | m
      · rw [if_pos rfl, ← reader_chr_zero]
        have := hstop
        rw [if_neg (by omega), hK] at this
        simpa using this
      · rw [if_neg (by omega)]
        have := hstop
        rw [if_neg (by omega), hK] at this
        simpa using this
    simp only [reader_iter_shift, reader_chr_shift, List.range_succ_eq_map,
      List.map_cons, List.map_map, reader_chr_zero, Function.comp]
    simp [List.append_assoc]

/-- Once the single pushed stream's buffer is exhausted, the block-comment
loop of `__lexer_skip_comment__` never returns: `reader_is_empty` tests the
stream stack (never empty here) while every further get yields the
synthesized newline and then the end sentinel forever, neither of which is
`*`, so every amount of fuel is consumed. -/
theorem skip_comment_block_exhausted :
    ∀ (m : Nat) (L : lexer_s) (s : stream_s), L.reader = [s] →
      s.stashed = [] → s.buf.length ≤ s.pc →
      lexer_skip_comment_block m L = none := by
  intro m
  induction m with
  | zero => intros; rfl
  | succ m ih =>
    intro L s hr hst hub
    have hnext := stream_next_at_end hst hub
    simp only [lexer_skip_comment_block, lexer_get, reader_get, hr,
      reader_is_empty, List.isEmpty_cons, hnext]
    rw [if_neg (by simp)]
    rw [if_neg ?hne]
    case hne =>
      by_cases hcond : s.lastch = 10 ∨ s.lastch = EOF
      · rw [if_pos hcond]
        decide
      · rw [if_neg hcond]
        decide
    exact ih _ { s with lastch := if s.lastch = 10 ∨ s.lastch = EOF
                                  then EOF else 10 } rfl hst hub

/-- Claim C2 (code bug): on the two-byte input `/*` — an unterminated block
comment — `lexer_scan` never produces a token, whatever the fuel: the
block-comment loop spins on the exhausted stream forever, and the diagnostic
after it is unreachable. -/
theorem c2_block_comment_never_returns (fuel : Nat) :
    lexer_scan fuel (lexer_on_string [47, 42]) = none := by
  rcases fuel with _ | n
  · rfl
  · have h := skip_comment_block_exhausted (n + 1)
      { reader := [{ buf := [47, 42], pc := 2, line := 1, column := 3,
                     line_note := 0, stashed := [], lastch := 42,
                     fn := "<string>" }],
        tok := { type := .TOKEN_UNKNOWN, cs := [], spaces := 0,
                 begin_of_line := false,
                 loc := { line := 1, column := 1, line_note := 0,
                          fn := "<string>" } },
        snapshots := [[]], diags := [] }
      { buf := [47, 42], pc := 2, line := 1, column := 3, line_note := 0,
        stashed := [], lastch := 42, fn := "<string>" }
      rfl rfl (by decide)
    have e1 : lexer_scan (n + 1) (lexer_on_string [47, 42]) =
        (match lexer_skip_comment_block (n + 1)
          { reader := [{ buf := [47, 42], pc := 2, line := 1, column := 3,
                         line_note := 0, stashed := [], lastch := 42,
                         fn := "<string>" }],
            tok := { type := .TOKEN_UNKNOWN, cs := [], spaces := 0,
                     begin_of_line := false,
                     loc := { line := 1, column := 1, line_note := 0,
                              fn := "<string>" } },
            snapshots := [[]], diags := [] } with
         | none => none
         | some L2 => some (lexer_make_token L2 .TOKEN_COMMENT)) := rfl
    rw [e1, h]

/-- Claim C1 (code bug): the arms of the `!` case of `lexer_scan` are
swapped — the input `!` alone yields `TOKEN_EXCLAIMEQUAL` (spelling `!=` in
the token dictionary) and the input `!=` yields `TOKEN_EXCLAIM` (spelling
`!`), the opposite of maximal munch as the spec states it and of the
dictionary's own spellings. -/
theorem c1_exclaim_swapped :
    (lexer_scan 5 (lexer_on_string [33])).map (fun p => p.1.type) =
      some .TOKEN_EXCLAIMEQUAL
    ∧ (lexer_scan 5 (lexer_on_string [33, 61])).map (fun p => p.1.type) =
      some .TOKEN_EXCLAIM
    ∧ token_original_spelling .TOKEN_EXCLAIM = some "!"
    ∧ token_original_spelling .TOKEN_EXCLAIMEQUAL = some "!=" :=
  ⟨rfl, rfl, rfl, rfl⟩

/-- Claim C5 as amended: on the input `i++`, repeated scans produce exactly
IDENTIFIER `i`, PLUSPLUS, NEW_LINE (the synthesized final newline becomes
its own token), then END. -/
theorem c5_amended_token_sequence :
    lexer_scan_list 4 9 (lexer_on_string [105, 43, 43]) =
      some [(.TOKEN_IDENTIFIER, [105]), (.TOKEN_PLUSPLUS, []),
            (.TOKEN_NEW_LINE, []), (.TOKEN_END, [])] :=
  rfl

/-- Counterexample to claim C5 as stated: the third scan on `i++` returns a
NEW_LINE token, not END, so the token sequence is not exactly IDENTIFIER,
PLUSPLUS, END. -/
theorem c5_counterexample_newline_token :
    (lexer_scan_list 3 9 (lexer_on_string [105, 43, 43])).map
        (fun l => l.map (fun p => p.1)) =
      some [.TOKEN_IDENTIFIER, .TOKEN_PLUSPLUS, .TOKEN_NEW_LINE]
    ∧ token_type_t.TOKEN_NEW_LINE ≠ token_type_t.TOKEN_END :=
  ⟨rfl, by decide⟩

/-- Claim C7 (code bug): the token dictionary's original-spelling column maps
`TOKEN_L_PAREN` to `)` and `TOKEN_R_PAREN` to `(`, the swapped spellings the
spec flags as a typo. -/
theorem c7_paren_spelling_swapped :
    token_original_spelling .TOKEN_L_PAREN = some ")"
    ∧ token_original_spelling .TOKEN_R_PAREN = some "(" :=
  ⟨rfl, rfl⟩

/-- Claim C8: scanning the one-byte input consisting of a lone apostrophe
produces exactly one CONSTANT_CHAR token with an empty literal and emits
exactly two diagnostics, the missing-terminator error and the
empty-character-constant error. -/
theorem c8_lone_quote_two_diagnostics :
    (lexer_scan 9 (lexer_on_string [39])).map
        (fun p => (p.1.type, p.1.cs, p.2.diags)) =
      some (.TOKEN_CONSTANT_CHAR, [],
        [.missing_terminating_char, .empty_character_constant]) :=
  rfl

/-- Counterexample to claim C9 as stated: on the input `1A` the claim's
own maximal prefix (per `specNumberMunch`, which follows the claim's words
and treats a `\u` universal character name as identifier-continue) is the
whole input, but the scanner stops the NUMBER literal at `1` and leaves the
backslash unconsumed. -/
theorem c9_counterexample_ucn :
    (lexer_scan 9 (lexer_on_string [49, 92, 117, 48, 48, 52, 49])).map
        (fun p => (p.1.type, p.1.cs)) = some (.TOKEN_NUMBER, [49])
    ∧ specNumberMunch 9 [49, 92, 117, 48, 48, 52, 49] 0 =
        [49, 92, 117, 48, 48, 52, 49]
    ∧ ([49] : List Nat) ≠ [49, 92, 117, 48, 48, 52, 49] :=
  ⟨rfl, rfl, by decide⟩

/-- Witness for C9 at the literal `1` followed by `e+2;`: the loop accepts
`e`, `+`, `2` (three characters, the sign after `e` included), stops at the
semicolon, and the reader stands on the semicolon. -/
theorem c9_amended_maximal_munch_witness :
    lexer_parse_number_go 9
      { lexer_on_string [101, 43, 50, 59] with
        tok := { token_init_tok with cs := [49] } } (-1) =
      some { reader := [{ buf := [101, 43, 50, 59], pc := 3, line := 1,
                          column := 4, line_note := 0, stashed := [],
                          lastch := 50, fn := "<string>" }],
             tok := { token_init_tok with cs := [49, 101, 43, 50] },
             snapshots := [[]], diags := [] } :=
  c9_amended_maximal_munch 3
    { lexer_on_string [101, 43, 50, 59] with
      tok := { token_init_tok with cs := [49] } }
    (-1) 9 (by decide) (by decide) (by decide)

/-- Claim C10: a token produced by `lexer_next` through fresh scanning (the
active stash is empty) carries the beginning-of-line flag exactly when the
reader's current line number is 1 at the moment of the call, whatever the
token's position within the line. -/
theorem c10_begin_of_line_iff_line_one (L : lexer_s)
    (rest : List (List token_s)) (fuel : Nat)
    (hr : L.reader ≠ []) (hs : L.snapshots = [] :: rest)
    (hsome : lexer_next fuel L ≠ none) :
    (lexer_next fuel L).map (fun p => p.1.begin_of_line) =
      some (if reader_line L.reader = 1 then true else false) := by
  simp only [lexer_next, hs]
  rcases hgo : lexer_next_go fuel L 0 with _ | ⟨t, leading, L2⟩
  · exfalso
    apply hsome
    simp [lexer_next, hs, hgo]
  · simp

/-- Witness for C10: on the input `a` the first token is scanned with the
reader on line 1 and carries the flag. -/
theorem c10_begin_of_line_iff_line_one_witness :
    (lexer_next 9 (lexer_on_string [97])).map (fun p => p.1.begin_of_line) =
      some (if reader_line (lexer_on_string [97]).reader = 1 then true
            else false) :=
  c10_begin_of_line_iff_line_one (lexer_on_string [97]) [] 9
    (by simp [lexer_on_string]) rfl (by decide)
